import Mathlib

/-!
# Verification of the rsalint `rsacheck` analyzers

This file gives a shallow embedding of the two diagnostic engines found in
the repository and proves the specification's claims about them.

* `RsacheckSSA` embeds the current SSA-based analyzer
  (package `rsacheck`, function `run` with `checkGenerateKey`,
  `checkGenerateMultiPrimeKey`, `checkEncryptPKCS1v15`,
  `checkSecureRandomReader`, `checkBits`, `checkNPrimesForBits`).
  SSA values are modelled by the shapes the analyzer distinguishes
  (`*ssa.Call`, `*ssa.MakeInterface`, `*ssa.Const`, anything else), and
  `pass.Reportf` is modelled by appending a `Diagnostic` to a list.

* `RsacheckAST` embeds the legacy AST-inspector analyzer (the `run`
  function dispatching on `rsa.GenerateKey`, `rsa.GenerateMultiPrimeKey`,
  `rsa.DecryptOAEP`, `rsa.SignPKCS1v15`, `rsa.DecryptPKCS1v15SessionKey`,
  `rsa.EncryptPKCS1v15`).  AST expressions are modelled by the facets the
  checker reads: the syntactic shape, the type string
  (`pass.TypesInfo.TypeOf(e).String()`), the constant value
  (`pass.TypesInfo.Types[e].Value`, `none` when the expression is not a
  compile-time constant), and the position.  Go runtime panics (calling
  `String()` on a nil `constant.Value`, indexing a missing argument) are
  modelled by `Option.none` on the checker's result.
-/

/-- A reported finding: source position (`token.Pos`) plus message,
exactly the two arguments of every `pass.Reportf` call. -/
structure Diagnostic where
  pos : Nat
  msg : String
  deriving DecidableEq, Repr

namespace RsacheckSSA

/-- `randomReader = "crypto/rand.Reader"`. -/
def randomReader : String := "crypto/rand.Reader"

/-- `generateKey = "crypto/rsa.GenerateKey"`. -/
def generateKey : String := "crypto/rsa.GenerateKey"

/-- `generateMultiPrimeKey = "crypto/rsa.GenerateMultiPrimeKey"`. -/
def generateMultiPrimeKey : String := "crypto/rsa.GenerateMultiPrimeKey"

/-- `encryptPKCS1v15 = "crypto/rsa.EncryptPKCS1v15"`. -/
def encryptPKCS1v15 : String := "crypto/rsa.EncryptPKCS1v15"

/-- Message constant `randSourceLintMessage`. -/
def randSourceLintMessage : String :=
  "use the crypto/rand.Reader for a cryptographically secure random number generator"

/-- Message constant `numberOfbitsLintMessage`. -/
def numberOfbitsLintMessage : String := "use 2048 bits or greater"

/-- Message constant `multipleOf8BitsMessage`. -/
def multipleOf8BitsMessage : String := "use a multiple of 8 bits for RSA keys"

/-- Message constant `generateKeyMessage`. -/
def generateKeyMessage : String := "use rsa.GenerateKey instead of rsa.GenerateMultiPrimeKey"

/-- Message constant `oaepMessage`. -/
def oaepMessage : String := "use rsa.EncryptOAEP instead of rsa.EncryptPKCS1v15"

/-- Format string `numberOfPrimesLintMessage = "for %v bits %v is the max number of primes to use"`,
already applied to its two `%v` arguments as in
`pass.Reportf(instr.Pos(), numberOfPrimesLintMessage, bitsValue.Int64(), recMaxNum)`. -/
def numberOfPrimesLintMessage (bits recMaxNum : Int) : String :=
  s!"for {bits} bits {recMaxNum} is the max number of primes to use"

/-- An SSA value, by the shapes `checkSecureRandomReader`, `checkBits` and
`checkNPrimesForBits` distinguish: a `*ssa.Call` (carrying
`value.Call.Value.String()`), a `*ssa.MakeInterface` (carrying its operand
`X`), a `*ssa.Const` integer (carrying `Int64()`), or any other kind of
value (parameter, global load, ...). -/
inductive SSAValue where
  | call (callee : String)
  | makeInterface (x : SSAValue)
  | constInt (n : Int)
  | other
  deriving DecidableEq, Repr

/-- `maxPrimesTable = map[int]int{1024: 3, 2048: 3, 4096: 4, 8192: 5}`;
`none` models a failed map lookup (`ok == false`). -/
def maxPrimesTable (bits : Int) : Option Int :=
  if bits = 1024 then some 3
  else if bits = 2048 then some 3
  else if bits = 4096 then some 4
  else if bits = 8192 then some 5
  else none

/-- `checkSecureRandomReader(pass, instr, value)`: a `*ssa.Call` whose callee
string differs from `crypto/rand.Reader` is reported at `instr.Pos()`; a
`*ssa.MakeInterface` recurses into its operand; anything else is ignored. -/
def checkSecureRandomReader (pos : Nat) (value : SSAValue) : List Diagnostic :=
  match value with
  | .call callee =>
      if callee ≠ randomReader then [⟨pos, randSourceLintMessage⟩] else []
  | .makeInterface x => checkSecureRandomReader pos x
  | _ => []

/-- `checkBits(pass, instr, bits)`: a non-constant is skipped; a constant
below 2048 gets the size diagnostic and one not divisible by 8 gets the
multiple-of-8 diagnostic (Go's `%` is the truncated remainder `Int.tmod`). -/
def checkBits (pos : Nat) (bits : SSAValue) : List Diagnostic :=
  match bits with
  | .constInt bitsValue =>
      (if bitsValue < 2048 then [⟨pos, numberOfbitsLintMessage⟩] else []) ++
      (if Int.tmod bitsValue 8 ≠ 0 then [⟨pos, multipleOf8BitsMessage⟩] else [])
  | _ => []

/-- `checkNPrimesForBits(pass, instr, nprimes, bits)`: both arguments must be
constants, the bit size must be a key of `maxPrimesTable`, and the
diagnostic fires only when the prime count exceeds the table's value. -/
def checkNPrimesForBits (pos : Nat) (nprimes bits : SSAValue) : List Diagnostic :=
  match nprimes, bits with
  | .constInt nprimesValue, .constInt bitsValue =>
      match maxPrimesTable bitsValue with
      | some recMaxNum =>
          if nprimesValue > recMaxNum then
            [⟨pos, numberOfPrimesLintMessage bitsValue recMaxNum⟩]
          else []
      | none => []
  | _, _ => []

/-- A `*ssa.Call` instruction: callee symbol (`instr.Call.Value.String()`),
argument values (`instr.Call.Args`), and position (`instr.Pos()`). -/
structure CallInstr where
  callee : String
  args : List SSAValue
  pos : Nat
  deriving Repr

/-- `checkGenerateMultiPrimeKey(pass, instr)`: checks `Args[0]` as random
source, `Args[2]` as bit size, `Args[1]`/`Args[2]` against the primes
table, then unconditionally reports the deprecation message. -/
def checkGenerateMultiPrimeKey (instr : CallInstr) : List Diagnostic :=
  let random := instr.args.getD 0 .other
  let nprimes := instr.args.getD 1 .other
  let bits := instr.args.getD 2 .other
  checkSecureRandomReader instr.pos random ++
    checkBits instr.pos bits ++
    checkNPrimesForBits instr.pos nprimes bits ++
    [⟨instr.pos, generateKeyMessage⟩]

/-- `checkGenerateKey(pass, instr)`: checks `Args[0]` as random source and
`Args[1]` as bit size. -/
def checkGenerateKey (instr : CallInstr) : List Diagnostic :=
  let random := instr.args.getD 0 .other
  let bits := instr.args.getD 1 .other
  checkSecureRandomReader instr.pos random ++ checkBits instr.pos bits

/-- `checkEncryptPKCS1v15(pass, instr)`: checks `Args[0]` as random source,
then unconditionally reports the OAEP message. -/
def checkEncryptPKCS1v15 (instr : CallInstr) : List Diagnostic :=
  checkSecureRandomReader instr.pos (instr.args.getD 0 .other) ++
    [⟨instr.pos, oaepMessage⟩]

/-- An SSA instruction as `run` sees it: either a `*ssa.Call` or any other
instruction kind (ignored by the type switch). -/
inductive Instr where
  | callInstr (c : CallInstr)
  | otherInstr
  deriving Repr

/-- The body of `run`'s innermost `switch instr.Call.Value.String()`:
dispatch a single instruction to the matching check, `default: continue`. -/
def runInstr (i : Instr) : List Diagnostic :=
  match i with
  | .callInstr instr =>
      if instr.callee = generateMultiPrimeKey then checkGenerateMultiPrimeKey instr
      else if instr.callee = generateKey then checkGenerateKey instr
      else if instr.callee = encryptPKCS1v15 then checkEncryptPKCS1v15 instr
      else []
  | .otherInstr => []

/-- A basic block: its instruction sequence `b.Instrs`. -/
structure BasicBlock where
  instrs : List Instr

/-- A function: its block sequence `fn.Blocks`. -/
structure Func where
  blocks : List BasicBlock

/-- `run(pass)`: walk `ir.SrcFuncs`, their blocks and instructions in
order, accumulating the diagnostics reported for each call. -/
def run (srcFuncs : List Func) : List Diagnostic :=
  srcFuncs.flatMap fun fn =>
    fn.blocks.flatMap fun b =>
      b.instrs.flatMap runInstr

end RsacheckSSA

namespace RsacheckAST

/-- Message constant `randSourceLintMessage` (AST analyzer). -/
def randSourceLintMessage : String :=
  "use the crypto/rand.Reader instead for a cryptographically secure random number generator"

/-- Message constant `numberOfbitsLintMessage` (AST analyzer). -/
def numberOfbitsLintMessage : String := "always use 2048 bits or greater"

/-- Message constant `hashLintSigningMessage`. -/
def hashLintSigningMessage : String := "use SHA 256/512 for hash when signing"

/-- Message constant `hashLintEncDecMessage`. -/
def hashLintEncDecMessage : String := "use SHA 256/512 for hash when decrypting or encrypting"

/-- Message constant `keySizeLintcMessage`. -/
def keySizeLintcMessage : String := "use a session key size of 16 bytes or greater"

/-- Message constant `signingLintMessage`. -/
def signingLintMessage : String := "use rsa.SignPSS instead of rsa.SignPKCS1v15"

/-- Message constant `encryptingLintMessage`. -/
def encryptingLintMessage : String := "use rsa.EncryptOAEP instead of rsa.EncryptPKCS1v15"

/-- Message constant `blidingLintMessage` (spelling as in the source). -/
def blidingLintMessage : String :=
  "do not use nil for entropy source to perform blinding to avoid timing side-channel attacks"

/-- Format string `numberOfPrimesLintMessage = "the reccomended number of primes for %v bits is %v"`
applied to its two (string) arguments, as in
`pass.Reportf(e1.Pos(), numberOfPrimesLintMessage, bits, recMaxNum)`. -/
def numberOfPrimesLintMessage (bits recMaxNum : String) : String :=
  s!"the reccomended number of primes for {bits} bits is {recMaxNum}"

/-- `recommendedMaxNumberOfPrimesForBitsTable = map[string]string{"1024": "3", "2048": "3", "4096": "4", "8192": "5"}`. -/
def recommendedMaxNumberOfPrimesForBitsTable (bits : String) : Option String :=
  if bits = "1024" then some "3"
  else if bits = "2048" then some "3"
  else if bits = "4096" then some "4"
  else if bits = "8192" then some "5"
  else none

/-- A `go/constant` value as the checker consumes it: an integer or a string
literal.  `String()` renders an integer in decimal and a string in its
quoted form, see `goConstString`. -/
inductive GoConst where
  | int (n : Int)
  | str (s : String)
  deriving DecidableEq, Repr

/-- `constant.Value.String()`: decimal for integers, quoted form for
strings (escaping inside string literals is not needed by any claim and is
modelled by plain quoting). -/
def goConstString : GoConst → String
  | .int n => toString n
  | .str s => "\"" ++ s ++ "\""

/-- `fmt.Sprintf("%v", value)` on a possibly-nil `constant.Value`: a nil
interface prints as `<nil>`, otherwise the `String()` rendering is used. -/
def goSprintfVal : Option GoConst → String
  | none => "<nil>"
  | some c => goConstString c

/-- `strconv.Atoi`: optional sign followed by decimal digits; `none` models
`err != nil`.  Written over the character list of the string. -/
def goAtoi (s : String) : Option Int :=
  let chars := s.data
  let neg := chars.head? = some '-'
  let digits :=
    if chars.head? = some '-' ∨ chars.head? = some '+' then chars.drop 1 else chars
  if digits.length = 0 ∨ ¬ (digits.all Char.isDigit) then none
  else
    let n : Nat := digits.foldl (fun a c => a * 10 + (c.toNat - 48)) 0
    some (if neg then -(n : Int) else (n : Int))

/-- `strconv.Unquote`: strips a surrounding pair of double quotes; `none`
models `err != nil` (in particular on the decimal rendering of an integer
constant).  Written over the character list of the string. -/
def goUnquote (s : String) : Option String :=
  if 2 ≤ s.data.length ∧ s.data.head? = some '"' ∧ s.data.getLast? = some '"' then
    some ⟨(s.data.drop 1).dropLast⟩
  else none

/-- The syntactic shape of an AST expression, by the cases the checker
distinguishes: a `*ast.SelectorExpr` (carrying `X` and `Sel`), a
`*ast.CallExpr` (carrying whether its `Fun` is a selector and which, the
type string of its `Fun`, and the constant value of its `Args[0]` when that
argument exists and is constant), a `*ast.CompositeLit` (carrying
`len(Elts)`, with a nil `Elts` counted as length 0), or anything else. -/
inductive AstShape where
  | selectorExpr (x sel : String)
  | callExpr (funSelector : Option (String × String)) (funTypeStr : String)
      (arg0Const : Option GoConst)
  | compositeLit (numElts : Nat)
  | otherShape
  deriving DecidableEq, Repr

/-- An AST expression, by the facets the checker reads: its shape, its type
string `pass.TypesInfo.TypeOf(e).String()`, its constant value
`pass.TypesInfo.Types[e].Value` (`none` when the expression is not a
compile-time constant), and its position `e.Pos()`. -/
structure AstExpr where
  shape : AstShape
  typeStr : String
  constVal : Option GoConst
  pos : Nat
  deriving DecidableEq, Repr

/-- `isOfSelectorExprType(typeStr, e)`: `e` is a selector whose
`fmt.Sprintf("%v.%v", se.X, se.Sel)` equals `typeStr`. -/
def isOfSelectorExprType (typeStr : String) (e : AstExpr) : Bool :=
  match e.shape with
  | .selectorExpr x sel => (x ++ "." ++ sel) = typeStr
  | _ => false

/-- `checkBlindKeyOp(e)`: report when the entropy argument's type is the
untyped nil. -/
def checkBlindKeyOp (e : AstExpr) : List Diagnostic :=
  if e.typeStr = "untyped nil" then [⟨e.pos, blidingLintMessage⟩] else []

/-- `checkSecureEntropySource(e)`: report unless the argument is literally
the selector `rand.Reader`. -/
def checkSecureEntropySource (e : AstExpr) : List Diagnostic :=
  if ¬ isOfSelectorExprType "rand.Reader" e then [⟨e.pos, randSourceLintMessage⟩] else []

/-- `checkSecureNumberOfBits(e)`: `strconv.Atoi` on
`pass.TypesInfo.Types[e].Value.String()`; report when the parsed constant
is below 2048.  `none` models the Go panic of calling `String()` on a nil
`constant.Value` when the expression is not a compile-time constant. -/
def checkSecureNumberOfBits (e : AstExpr) : Option (List Diagnostic) :=
  match e.constVal with
  | none => none
  | some c =>
      some (match goAtoi (goConstString c) with
            | some bits => if bits < 2048 then [⟨e.pos, numberOfbitsLintMessage⟩] else []
            | none => [])

/-- `checkSecureNumberOfPrimesForBits(e1, e2)`: look the bit-size string up
in the table and report when the recommended maximum differs (as a string)
from the prime-count string.  `none` models the panic on a non-constant
argument. -/
def checkSecureNumberOfPrimesForBits (e1 e2 : AstExpr) : Option (List Diagnostic) :=
  match e1.constVal, e2.constVal with
  | some c1, some c2 =>
      let nprimes := goConstString c1
      let bits := goConstString c2
      some (match recommendedMaxNumberOfPrimesForBitsTable bits with
            | some recMaxNum =>
                if recMaxNum ≠ nprimes then
                  [⟨e1.pos, numberOfPrimesLintMessage bits recMaxNum⟩]
                else []
            | none => [])
  | _, _ => none

/-- `checkSecureHashAlgo(e)`: `fmt.Sprintf("%v", pass.TypesInfo.Types[e].Value)`
compared against `"7"` (SHA-512) and `"5"` (SHA-256); anything else —
including the `<nil>` rendering of a non-constant hash — is reported. -/
def checkSecureHashAlgo (e : AstExpr) : List Diagnostic :=
  let hashValue := goSprintfVal e.constVal
  if hashValue ≠ "7" ∧ hashValue ≠ "5" then [⟨e.pos, hashLintSigningMessage⟩] else []

/-- `checkSecureHashFunc(e)`: when `e` is a call whose `Fun` is a selector,
report unless that selector is `sha256.New` or `sha512.New`. -/
def checkSecureHashFunc (e : AstExpr) : List Diagnostic :=
  match e.shape with
  | .callExpr funSelector _ _ =>
      match funSelector with
      | some (x, sel) =>
          if ¬ ((x ++ "." ++ sel) = "sha256.New") ∧ ¬ ((x ++ "." ++ sel) = "sha512.New") then
            [⟨e.pos, hashLintEncDecMessage⟩]
          else []
      | none => []
  | _ => []

/-- `checkPKCS1v15SessionKeySize(e)`: untyped nil reports; a `[]byte`-typed
expression is inspected by shape — a `[]byte("...")` conversion unquotes the
string constant and reports when its byte length is below 16 (skipping when
`Unquote` fails, `none` when the argument is not constant: Go panic), a
composite literal reports when it has fewer than 16 elements, the
`func() []byte` branch is an unimplemented no-op, and any other shape hits
the leftover `pass.Reportf(e.Pos(), "TRACE: %v", ...)` debug report. -/
def checkPKCS1v15SessionKeySize (e : AstExpr) : Option (List Diagnostic) :=
  if e.typeStr = "untyped nil" then some [⟨e.pos, keySizeLintcMessage⟩]
  else if e.typeStr = "[]byte" then
    match e.shape with
    | .callExpr _ funTypeStr arg0Const =>
        if funTypeStr = "[]byte" then
          match arg0Const with
          | none => none
          | some c =>
              match goUnquote (goConstString c) with
              | some s => some (if s.utf8ByteSize < 16 then [⟨e.pos, keySizeLintcMessage⟩] else [])
              | none => some []
        else some []
    | .compositeLit numElts =>
        some (if numElts < 16 then [⟨e.pos, keySizeLintcMessage⟩] else [])
    | _ => some [⟨e.pos, "TRACE: " ++ e.typeStr⟩]
  else some []

/-- The body of the `inspect.Preorder` callback for one `*ast.CallExpr`:
when its `Fun` is a selector, dispatch on the six target operations, running
that operation's checks in declared order; otherwise do nothing.  `sePos` is
`se.Pos()`, used by the two unconditional reports.  `none` models a Go
panic (missing argument index, or a panicking check) aborting the visit. -/
def astVisitCall (funSel : Option (String × String)) (sePos : Nat)
    (args : List AstExpr) : Option (List Diagnostic) :=
  match funSel with
  | none => some []
  | some (x, sel) =>
      let t := x ++ "." ++ sel
      if t = "rsa.GenerateKey" then
        match args with
        | a0 :: a1 :: _ => do
            let bitsDiags ← checkSecureNumberOfBits a1
            pure (checkSecureEntropySource a0 ++ bitsDiags)
        | _ => none
      else if t = "rsa.GenerateMultiPrimeKey" then
        match args with
        | a0 :: a1 :: a2 :: _ => do
            let bitsDiags ← checkSecureNumberOfBits a2
            let primesDiags ← checkSecureNumberOfPrimesForBits a1 a2
            pure (checkSecureEntropySource a0 ++ bitsDiags ++ primesDiags)
        | _ => none
      else if t = "rsa.DecryptOAEP" then
        match args with
        | a0 :: a1 :: _ =>
            some (checkSecureHashFunc a0 ++ checkSecureEntropySource a1 ++ checkBlindKeyOp a1)
        | _ => none
      else if t = "rsa.SignPKCS1v15" then
        match args with
        | a0 :: _ :: a2 :: _ =>
            some (checkSecureEntropySource a0 ++ checkBlindKeyOp a0 ++
              checkSecureHashAlgo a2 ++ [⟨sePos, signingLintMessage⟩])
        | _ => none
      else if t = "rsa.DecryptPKCS1v15SessionKey" then
        match args with
        | a0 :: _ :: _ :: a3 :: _ => do
            let keyDiags ← checkPKCS1v15SessionKeySize a3
            pure (checkBlindKeyOp a0 ++ keyDiags)
        | _ => none
      else if t = "rsa.EncryptPKCS1v15" then
        match args with
        | a0 :: _ => some (checkSecureEntropySource a0 ++ [⟨sePos, encryptingLintMessage⟩])
        | _ => none
      else some []

end RsacheckAST

namespace RsacheckSSA

/-- `n` layers of `MakeInterface` wrapping around a value. -/
def wrapN : Nat → SSAValue → SSAValue
  | 0, v => v
  | n + 1, v => .makeInterface (wrapN n v)

/-- All `MakeInterface` layers stripped from a value. -/
def stripWraps : SSAValue → SSAValue
  | .makeInterface x => stripWraps x
  | .call c => .call c
  | .constInt n => .constInt n
  | .other => .other

theorem checkSecureRandomReader_wrapN (pos : Nat) (n : Nat) (v : SSAValue) :
    checkSecureRandomReader pos (wrapN n v) = checkSecureRandomReader pos v := by
  induction n with
  | zero => rfl
  | succ n ih => simpa [wrapN, checkSecureRandomReader] using ih

theorem mem_checkSecureRandomReader {pos : Nat} {v : SSAValue} {d : Diagnostic}
    (h : d ∈ checkSecureRandomReader pos v) : d = ⟨pos, randSourceLintMessage⟩ := by
  induction v with
  | call c =>
      unfold checkSecureRandomReader at h
      split at h <;> simp_all
  | makeInterface x ih => exact ih (by simpa [checkSecureRandomReader] using h)
  | constInt n => simp [checkSecureRandomReader] at h
  | other => simp [checkSecureRandomReader] at h

theorem mem_checkBits {pos : Nat} {v : SSAValue} {d : Diagnostic}
    (h : d ∈ checkBits pos v) :
    d = ⟨pos, numberOfbitsLintMessage⟩ ∨ d = ⟨pos, multipleOf8BitsMessage⟩ := by
  cases v with
  | constInt b =>
      unfold checkBits at h
      rcases List.mem_append.mp h with h1 | h1
      · have : d = ⟨pos, numberOfbitsLintMessage⟩ := by split at h1 <;> simp_all
        exact Or.inl this
      · have : d = ⟨pos, multipleOf8BitsMessage⟩ := by split at h1 <;> simp_all
        exact Or.inr this
  | call c => simp [checkBits] at h
  | makeInterface x => simp [checkBits] at h
  | other => simp [checkBits] at h

theorem maxPrimesTable_cases {b r : Int} (h : maxPrimesTable b = some r) :
    (b = 1024 ∧ r = 3) ∨ (b = 2048 ∧ r = 3) ∨ (b = 4096 ∧ r = 4) ∨ (b = 8192 ∧ r = 5) := by
  unfold maxPrimesTable at h
  split_ifs at h <;> simp_all

theorem mem_checkNPrimesForBits {pos : Nat} {np bits : SSAValue} {d : Diagnostic}
    (h : d ∈ checkNPrimesForBits pos np bits) :
    ∃ b r, bits = .constInt b ∧ maxPrimesTable b = some r ∧
      d = ⟨pos, numberOfPrimesLintMessage b r⟩ := by
  unfold checkNPrimesForBits at h
  split at h
  case _ n b =>
    cases ht : maxPrimesTable b with
    | none => rw [ht] at h; simp at h
    | some r =>
        rw [ht] at h
        refine ⟨b, r, rfl, ht, ?_⟩
        split at h <;> simp_all
  case _ => simp_all

/-- Go's truncated remainder is zero exactly when the Euclidean remainder is. -/
theorem tmod_ne_zero_iff (b : Int) : Int.tmod b 8 ≠ 0 ↔ b % 8 ≠ 0 := by
  have h1 : Int.tmod b 8 = 0 ↔ (8 : Int) ∣ b :=
    ⟨Int.dvd_of_tmod_eq_zero, Int.tmod_eq_zero_of_dvd⟩
  have h2 : b % 8 = 0 ↔ (8 : Int) ∣ b :=
    ⟨Int.dvd_of_emod_eq_zero, Int.emod_eq_zero_of_dvd⟩
  rw [not_iff_not, h1, h2]

end RsacheckSSA

namespace RsacheckSSA

theorem ne_diag_of_msg_ne {p q : Nat} {m m' : String} (h : m ≠ m') :
    (⟨p, m⟩ : Diagnostic) ≠ ⟨q, m'⟩ := fun hd => h (congrArg Diagnostic.msg hd)

theorem mem_checkBits_iff (pos : Nat) (b : Int) (d : Diagnostic) :
    d ∈ checkBits pos (.constInt b) ↔
      (b < 2048 ∧ d = ⟨pos, numberOfbitsLintMessage⟩) ∨
      (b % 8 ≠ 0 ∧ d = ⟨pos, multipleOf8BitsMessage⟩) := by
  have ht := tmod_ne_zero_iff b
  unfold checkBits
  rw [List.mem_append]
  split_ifs with h1 h2 <;> simp_all

theorem primes_msg_ne_fixed {b r : Int} (ht : maxPrimesTable b = some r) :
    numberOfPrimesLintMessage b r ≠ randSourceLintMessage ∧
    numberOfPrimesLintMessage b r ≠ numberOfbitsLintMessage ∧
    numberOfPrimesLintMessage b r ≠ multipleOf8BitsMessage ∧
    numberOfPrimesLintMessage b r ≠ generateKeyMessage := by
  rcases maxPrimesTable_cases ht with ⟨rfl, rfl⟩ | ⟨rfl, rfl⟩ | ⟨rfl, rfl⟩ | ⟨rfl, rfl⟩ <;>
    exact ⟨by decide, by decide, by decide, by decide⟩

theorem not_mem_checkNPrimesForBits {pos p : Nat} {np bits : SSAValue} {m : String}
    (hm : ∀ b r, maxPrimesTable b = some r → m ≠ numberOfPrimesLintMessage b r) :
    (⟨p, m⟩ : Diagnostic) ∉ checkNPrimesForBits pos np bits := by
  intro h
  obtain ⟨b, r, _, ht, hd⟩ := mem_checkNPrimesForBits h
  exact hm b r ht (congrArg Diagnostic.msg hd)

theorem checkGenerateKey_eq (callee : String) (a0 a1 : SSAValue) (pos : Nat) :
    checkGenerateKey ⟨callee, [a0, a1], pos⟩ =
      checkSecureRandomReader pos a0 ++ checkBits pos a1 := rfl

theorem checkGenerateMultiPrimeKey_eq (callee : String) (a0 a1 a2 : SSAValue) (pos : Nat) :
    checkGenerateMultiPrimeKey ⟨callee, [a0, a1, a2], pos⟩ =
      checkSecureRandomReader pos a0 ++ checkBits pos a2 ++
        checkNPrimesForBits pos a1 a2 ++ [⟨pos, generateKeyMessage⟩] := rfl

end RsacheckSSA

section SSATheorems

open RsacheckSSA

/-- C1: for a single-prime or multi-prime key-generation call whose bit-size
argument is the compile-time constant `b`, the analyzer emits the weak-bit-size
diagnostic exactly when `b < 2048` and the multiple-of-8 diagnostic exactly
when `b` is not divisible by 8; in particular 2048 yields no size diagnostic,
2047 yields the size diagnostic, and 2049 yields only the multiple-of-8
diagnostic. -/
theorem claim_c1_bit_size_diagnostics (pos : Nat) (random np : SSAValue) (b : Int) :
    (⟨pos, numberOfbitsLintMessage⟩ ∈
        checkGenerateKey ⟨generateKey, [random, .constInt b], pos⟩ ↔ b < 2048) ∧
    (⟨pos, multipleOf8BitsMessage⟩ ∈
        checkGenerateKey ⟨generateKey, [random, .constInt b], pos⟩ ↔ b % 8 ≠ 0) ∧
    (⟨pos, numberOfbitsLintMessage⟩ ∈
        checkGenerateMultiPrimeKey ⟨generateMultiPrimeKey, [random, np, .constInt b], pos⟩ ↔
          b < 2048) ∧
    (⟨pos, multipleOf8BitsMessage⟩ ∈
        checkGenerateMultiPrimeKey ⟨generateMultiPrimeKey, [random, np, .constInt b], pos⟩ ↔
          b % 8 ≠ 0) ∧
    checkBits pos (.constInt 2048) = [] ∧
    ⟨pos, numberOfbitsLintMessage⟩ ∈ checkBits pos (.constInt 2047) ∧
    checkBits pos (.constInt 2049) = [⟨pos, multipleOf8BitsMessage⟩] := by
  have hbr : numberOfbitsLintMessage ≠ randSourceLintMessage := by decide
  have hbm : numberOfbitsLintMessage ≠ multipleOf8BitsMessage := by decide
  have hbg : numberOfbitsLintMessage ≠ generateKeyMessage := by decide
  have hmr : multipleOf8BitsMessage ≠ randSourceLintMessage := by decide
  have hmb : multipleOf8BitsMessage ≠ numberOfbitsLintMessage := by decide
  have hmg : multipleOf8BitsMessage ≠ generateKeyMessage := by decide
  refine ⟨?_, ?_, ?_, ?_, rfl, List.mem_cons_self _ _, rfl⟩
  · rw [checkGenerateKey_eq, List.mem_append, mem_checkBits_iff]
    constructor
    · rintro (h | ⟨hb, _⟩ | ⟨_, hd⟩)
      · exact absurd (mem_checkSecureRandomReader h) (ne_diag_of_msg_ne hbr)
      · exact hb
      · exact absurd (congrArg Diagnostic.msg hd) hbm
    · intro hb; exact Or.inr (Or.inl ⟨hb, rfl⟩)
  · rw [checkGenerateKey_eq, List.mem_append, mem_checkBits_iff]
    constructor
    · rintro (h | ⟨_, hd⟩ | ⟨hb, _⟩)
      · exact absurd (mem_checkSecureRandomReader h) (ne_diag_of_msg_ne hmr)
      · exact absurd (congrArg Diagnostic.msg hd) hmb
      · exact hb
    · intro hb; exact Or.inr (Or.inr ⟨hb, rfl⟩)
  · rw [checkGenerateMultiPrimeKey_eq, List.mem_append, List.mem_append, List.mem_append,
      mem_checkBits_iff, List.mem_singleton]
    constructor
    · rintro (((h | ⟨hb, _⟩ | ⟨_, hd⟩) | hp) | hdep)
      · exact absurd (mem_checkSecureRandomReader h) (ne_diag_of_msg_ne hbr)
      · exact hb
      · exact absurd (congrArg Diagnostic.msg hd) hbm
      · exact absurd hp (not_mem_checkNPrimesForBits fun b' r' ht' =>
          Ne.symm (primes_msg_ne_fixed ht').2.1)
      · exact absurd (congrArg Diagnostic.msg hdep) hbg
    · intro hb; exact Or.inl (Or.inl (Or.inr (Or.inl ⟨hb, rfl⟩)))
  · rw [checkGenerateMultiPrimeKey_eq, List.mem_append, List.mem_append, List.mem_append,
      mem_checkBits_iff, List.mem_singleton]
    constructor
    · rintro (((h | ⟨_, hd⟩ | ⟨hb, _⟩) | hp) | hdep)
      · exact absurd (mem_checkSecureRandomReader h) (ne_diag_of_msg_ne hmr)
      · exact absurd (congrArg Diagnostic.msg hd) hmb
      · exact hb
      · exact absurd hp (not_mem_checkNPrimesForBits fun b' r' ht' =>
          Ne.symm (primes_msg_ne_fixed ht').2.2.1)
      · exact absurd (congrArg Diagnostic.msg hdep) hmg
    · intro hb; exact Or.inl (Or.inl (Or.inr (Or.inr ⟨hb, rfl⟩)))

end SSATheorems

section SSATheorems2

open RsacheckSSA

/-- C2: for a multi-prime key-generation call with constant prime count `n`
and constant bit size `b` that is a key of the primes table with recommended
maximum `r`, the prime-count diagnostic is emitted exactly when `n > r`; in
particular bit size 1024 with prime count 3 yields no prime-count diagnostic
and prime count 9 yields it, referencing maximum 3. -/
theorem claim_c2_prime_count_diagnostic (pos : Nat) (random : SSAValue) (n b r : Int)
    (h : maxPrimesTable b = some r) :
    (⟨pos, numberOfPrimesLintMessage b r⟩ ∈
        checkGenerateMultiPrimeKey
          ⟨generateMultiPrimeKey, [random, .constInt n, .constInt b], pos⟩ ↔
      n > r) ∧
    checkNPrimesForBits pos (.constInt 3) (.constInt 1024) = [] ∧
    checkNPrimesForBits pos (.constInt 9) (.constInt 1024) =
      [⟨pos, numberOfPrimesLintMessage 1024 3⟩] := by
  obtain ⟨hne1, hne2, hne3, hne4⟩ := primes_msg_ne_fixed h
  refine ⟨?_, rfl, rfl⟩
  rw [checkGenerateMultiPrimeKey_eq, List.mem_append, List.mem_append, List.mem_append,
    mem_checkBits_iff, List.mem_singleton]
  have hnp : checkNPrimesForBits pos (.constInt n) (.constInt b) =
      if n > r then [⟨pos, numberOfPrimesLintMessage b r⟩] else [] := by
    have hred : checkNPrimesForBits pos (.constInt n) (.constInt b) =
        (match maxPrimesTable b with
          | some recMaxNum =>
              if n > recMaxNum then [⟨pos, numberOfPrimesLintMessage b recMaxNum⟩] else []
          | none => []) := rfl
    rw [hred, h]
  constructor
  · rintro (((h1 | ⟨_, hd⟩ | ⟨_, hd⟩) | hp) | hdep)
    · exact absurd (mem_checkSecureRandomReader h1) (ne_diag_of_msg_ne hne1)
    · exact absurd (congrArg Diagnostic.msg hd) hne2
    · exact absurd (congrArg Diagnostic.msg hd) hne3
    · rw [hnp] at hp
      by_cases hn : n > r
      · exact hn
      · rw [if_neg hn] at hp; cases hp
    · exact absurd (congrArg Diagnostic.msg hdep) hne4
  · intro hn
    refine Or.inl (Or.inr ?_)
    rw [hnp, if_pos hn]
    exact List.mem_singleton.mpr rfl

/-- Witness for C2 at bit size 1024, prime count 9, recommended maximum 3. -/
theorem claim_c2_prime_count_diagnostic_witness :
    maxPrimesTable 1024 = some 3 ∧
    ((⟨7, numberOfPrimesLintMessage 1024 3⟩ ∈
        checkGenerateMultiPrimeKey
          ⟨generateMultiPrimeKey, [.other, .constInt 9, .constInt 1024], 7⟩ ↔
      (9 : Int) > 3) ∧
    checkNPrimesForBits 7 (.constInt 3) (.constInt 1024) = [] ∧
    checkNPrimesForBits 7 (.constInt 9) (.constInt 1024) =
      [⟨7, numberOfPrimesLintMessage 1024 3⟩]) :=
  ⟨rfl, claim_c2_prime_count_diagnostic 7 .other 9 1024 3 rfl⟩

/-- C7 (counterexample): the claim says a value wrapped in two interface
layers resolves to Unresolved and yields no entropy diagnostic, but the
analyzer recurses through every `MakeInterface` layer and still reports the
doubly wrapped insecure call. -/
theorem claim_c7_single_unwrap_counterexample :
    checkSecureRandomReader 4 (.makeInterface (.makeInterface (.call "math/rand.New"))) =
      [⟨4, randSourceLintMessage⟩] := by decide

/-- C7 (amended): the value resolver unwraps arbitrarily many interface
layers — wrapping is transparent to the entropy check, and a call result
under any number of layers is recognized, reported exactly when its callee
differs from crypto/rand.Reader. -/
theorem claim_c7_unbounded_unwrap_amended (pos n : Nat) (v : SSAValue) (c : String) :
    checkSecureRandomReader pos (wrapN n v) = checkSecureRandomReader pos v ∧
    checkSecureRandomReader pos (wrapN n (.call c)) =
      (if c = randomReader then [] else [⟨pos, randSourceLintMessage⟩]) := by
  refine ⟨checkSecureRandomReader_wrapN pos n v, ?_⟩
  rw [checkSecureRandomReader_wrapN]
  by_cases hc : c = randomReader <;> simp [checkSecureRandomReader, hc]

/-- C8: a single-prime key-generation call whose first argument is a
(possibly interface-wrapped) call result with callee other than
crypto/rand.Reader and whose bit size is the constant 1024 yields exactly the
weak-entropy and weak-bit-size diagnostics, in that order, both at the call
instruction's position. -/
theorem claim_c8_generate_key_two_diagnostics (pos k : Nat) (c : String)
    (h : c ≠ randomReader) :
    runInstr (.callInstr ⟨generateKey, [wrapN k (.call c), .constInt 1024], pos⟩) =
      [⟨pos, randSourceLintMessage⟩, ⟨pos, numberOfbitsLintMessage⟩] ∧
    ∀ d ∈ runInstr (.callInstr ⟨generateKey, [wrapN k (.call c), .constInt 1024], pos⟩),
      d.pos = pos := by
  have hrun : runInstr (.callInstr ⟨generateKey, [wrapN k (.call c), .constInt 1024], pos⟩) =
      checkGenerateKey ⟨generateKey, [wrapN k (.call c), .constInt 1024], pos⟩ := by
    have hred : runInstr (.callInstr ⟨generateKey, [wrapN k (.call c), .constInt 1024], pos⟩) =
        (if generateKey = generateMultiPrimeKey then
          checkGenerateMultiPrimeKey ⟨generateKey, [wrapN k (.call c), .constInt 1024], pos⟩
        else if generateKey = generateKey then
          checkGenerateKey ⟨generateKey, [wrapN k (.call c), .constInt 1024], pos⟩
        else if generateKey = encryptPKCS1v15 then
          checkEncryptPKCS1v15 ⟨generateKey, [wrapN k (.call c), .constInt 1024], pos⟩
        else []) := rfl
    rw [hred, if_neg (by decide), if_pos rfl]
  have hck : checkGenerateKey ⟨generateKey, [wrapN k (.call c), .constInt 1024], pos⟩ =
      [⟨pos, randSourceLintMessage⟩, ⟨pos, numberOfbitsLintMessage⟩] := by
    rw [checkGenerateKey_eq, checkSecureRandomReader_wrapN]
    show (if c ≠ randomReader then [(⟨pos, randSourceLintMessage⟩ : Diagnostic)] else []) ++ _ = _
    rw [if_pos h]
    rfl
  refine ⟨hrun.trans hck, ?_⟩
  rw [hrun, hck]
  intro d hd
  rcases List.mem_cons.mp hd with rfl | hd
  · rfl
  rcases List.mem_cons.mp hd with rfl | hd
  · rfl
  cases hd

/-- Witness for C8 with the unwrapped insecure source math/rand.New. -/
theorem claim_c8_generate_key_two_diagnostics_witness :
    runInstr (.callInstr ⟨generateKey, [wrapN 0 (.call "math/rand.New"), .constInt 1024], 13⟩) =
      [⟨13, randSourceLintMessage⟩, ⟨13, numberOfbitsLintMessage⟩] ∧
    ∀ d ∈ runInstr (.callInstr ⟨generateKey,
        [wrapN 0 (.call "math/rand.New"), .constInt 1024], 13⟩),
      d.pos = 13 :=
  claim_c8_generate_key_two_diagnostics 13 0 "math/rand.New" (by decide)

/-- C9: a multi-prime key-generation call whose constant bit size is not a
key of the primes table (such as 3072) never yields a prime-count diagnostic,
whatever the constant prime count: the prime-count check returns nothing and
the call's diagnostics are exactly the entropy, bit-size and deprecation
parts. -/
theorem claim_c9_bits_not_in_table (pos : Nat) (random : SSAValue) (n b : Int)
    (h : maxPrimesTable b = none) :
    checkNPrimesForBits pos (.constInt n) (.constInt b) = [] ∧
    checkGenerateMultiPrimeKey ⟨generateMultiPrimeKey, [random, .constInt n, .constInt b], pos⟩ =
      checkSecureRandomReader pos random ++ checkBits pos (.constInt b) ++
        [⟨pos, generateKeyMessage⟩] := by
  have hz : checkNPrimesForBits pos (.constInt n) (.constInt b) = [] := by
    have hred : checkNPrimesForBits pos (.constInt n) (.constInt b) =
        (match maxPrimesTable b with
          | some recMaxNum =>
              if n > recMaxNum then [⟨pos, numberOfPrimesLintMessage b recMaxNum⟩] else []
          | none => []) := rfl
    rw [hred, h]
  refine ⟨hz, ?_⟩
  rw [checkGenerateMultiPrimeKey_eq, hz]
  simp

/-- Witness for C9 at bit size 3072 and prime count 100. -/
theorem claim_c9_bits_not_in_table_witness :
    checkNPrimesForBits 5 (.constInt 100) (.constInt 3072) = [] ∧
    checkGenerateMultiPrimeKey
        ⟨generateMultiPrimeKey, [.other, .constInt 100, .constInt 3072], 5⟩ =
      checkSecureRandomReader 5 .other ++ checkBits 5 (.constInt 3072) ++
        [⟨5, generateKeyMessage⟩] :=
  claim_c9_bits_not_in_table 5 .other 100 3072 rfl

/-- C10: the entropy check reports exactly when the argument, after stripping
every interface-wrapping layer, is a call result whose callee differs from
crypto/rand.Reader; constants, plain variables, parameters and global loads
(any other value shape) never produce the entropy diagnostic. -/
theorem claim_c10_entropy_characterization (pos : Nat) (v : SSAValue) :
    checkSecureRandomReader pos v =
      (match stripWraps v with
        | .call c => if c = randomReader then [] else [⟨pos, randSourceLintMessage⟩]
        | _ => []) := by
  induction v with
  | call c => by_cases hc : c = randomReader <;> simp [checkSecureRandomReader, stripWraps, hc]
  | makeInterface x ih => simpa [checkSecureRandomReader, stripWraps] using ih
  | constInt m => rfl
  | other => rfl

end SSATheorems2

namespace RsacheckAST

theorem goUnquote_quote (s : String) : goUnquote ("\"" ++ s ++ "\"") = some s := by
  have hdata : ("\"" ++ s ++ "\"").data = '"' :: (s.data ++ ['"']) := by
    rw [String.data_append, String.data_append]
    rfl
  unfold goUnquote
  rw [hdata]
  rw [if_pos ⟨by simp, rfl, by rw [← List.cons_append]; exact List.getLast?_concat _⟩]
  simp only [List.drop_succ_cons, List.drop_zero, List.dropLast_concat]

end RsacheckAST

section MixedTheorems

open RsacheckSSA RsacheckAST

/-- C6: a call whose callee symbol is not one of the operations in either
rule table yields zero diagnostics, whatever its arguments: the SSA
dispatcher's default arm skips it, and the AST dispatcher falls through all
six operation tests. -/
theorem claim_c6_unmatched_no_diagnostics (i : CallInstr) (x sel : String) (sePos : Nat)
    (args : List AstExpr)
    (h1 : i.callee ≠ generateMultiPrimeKey) (h2 : i.callee ≠ generateKey)
    (h3 : i.callee ≠ encryptPKCS1v15)
    (h4 : x ++ "." ++ sel ≠ "rsa.GenerateKey")
    (h5 : x ++ "." ++ sel ≠ "rsa.GenerateMultiPrimeKey")
    (h6 : x ++ "." ++ sel ≠ "rsa.DecryptOAEP")
    (h7 : x ++ "." ++ sel ≠ "rsa.SignPKCS1v15")
    (h8 : x ++ "." ++ sel ≠ "rsa.DecryptPKCS1v15SessionKey")
    (h9 : x ++ "." ++ sel ≠ "rsa.EncryptPKCS1v15") :
    runInstr (.callInstr i) = [] ∧
    astVisitCall (some (x, sel)) sePos args = some [] := by
  constructor
  · obtain ⟨callee, cargs, cpos⟩ := i
    simp only at h1 h2 h3
    have hred : runInstr (.callInstr ⟨callee, cargs, cpos⟩) =
        (if callee = generateMultiPrimeKey then
          checkGenerateMultiPrimeKey ⟨callee, cargs, cpos⟩
        else if callee = generateKey then checkGenerateKey ⟨callee, cargs, cpos⟩
        else if callee = encryptPKCS1v15 then checkEncryptPKCS1v15 ⟨callee, cargs, cpos⟩
        else []) := rfl
    rw [hred, if_neg h1, if_neg h2, if_neg h3]
  · have hred : astVisitCall (some (x, sel)) sePos args =
        (if x ++ "." ++ sel = "rsa.GenerateKey" then
          match args with
          | a0 :: a1 :: _ => do
              let bitsDiags ← checkSecureNumberOfBits a1
              pure (checkSecureEntropySource a0 ++ bitsDiags)
          | _ => none
        else if x ++ "." ++ sel = "rsa.GenerateMultiPrimeKey" then
          match args with
          | a0 :: a1 :: a2 :: _ => do
              let bitsDiags ← checkSecureNumberOfBits a2
              let primesDiags ← checkSecureNumberOfPrimesForBits a1 a2
              pure (checkSecureEntropySource a0 ++ bitsDiags ++ primesDiags)
          | _ => none
        else if x ++ "." ++ sel = "rsa.DecryptOAEP" then
          match args with
          | a0 :: a1 :: _ =>
              some (checkSecureHashFunc a0 ++ checkSecureEntropySource a1 ++ checkBlindKeyOp a1)
          | _ => none
        else if x ++ "." ++ sel = "rsa.SignPKCS1v15" then
          match args with
          | a0 :: _ :: a2 :: _ =>
              some (checkSecureEntropySource a0 ++ checkBlindKeyOp a0 ++
                checkSecureHashAlgo a2 ++ [⟨sePos, signingLintMessage⟩])
          | _ => none
        else if x ++ "." ++ sel = "rsa.DecryptPKCS1v15SessionKey" then
          match args with
          | a0 :: _ :: _ :: a3 :: _ => do
              let keyDiags ← checkPKCS1v15SessionKeySize a3
              pure (checkBlindKeyOp a0 ++ keyDiags)
          | _ => none
        else if x ++ "." ++ sel = "rsa.EncryptPKCS1v15" then
          match args with
          | a0 :: _ => some (checkSecureEntropySource a0 ++ [⟨sePos, encryptingLintMessage⟩])
          | _ => none
        else some []) := rfl
    rw [hred, if_neg h4, if_neg h5, if_neg h6, if_neg h7, if_neg h8, if_neg h9]

/-- Witness for C6: a fmt.Println call is matched by neither analyzer. -/
theorem claim_c6_unmatched_no_diagnostics_witness :
    runInstr (.callInstr ⟨"fmt.Println", [.other], 21⟩) = [] ∧
    astVisitCall (some ("fmt", "Println")) 21 [] = some [] :=
  claim_c6_unmatched_no_diagnostics ⟨"fmt.Println", [.other], 21⟩ "fmt" "Println" 21 []
    (by decide) (by decide) (by decide) (by decide) (by decide) (by decide) (by decide)
    (by decide) (by decide)

end MixedTheorems

section ASTTheorems

open RsacheckAST

/-- C3 (counterexample): the claim says a check whose inspected argument is
Unresolved emits no diagnostic, but the hash-strength check renders a
non-constant hash identifier as `<nil>`, which is neither accepted value, and
reports it — both in isolation and through the SignPKCS1v15 rule entry. -/
theorem claim_c3_unresolved_counterexample :
    checkSecureHashAlgo ⟨.otherShape, "crypto.Hash", none, 14⟩ =
      [⟨14, hashLintSigningMessage⟩] ∧
    astVisitCall (some ("rsa", "SignPKCS1v15")) 10
      [⟨.selectorExpr "rand" "Reader", "io.Reader", none, 11⟩,
       ⟨.otherShape, "*rsa.PrivateKey", none, 12⟩,
       ⟨.otherShape, "crypto.Hash", none, 14⟩,
       ⟨.otherShape, "[]byte", none, 15⟩] =
      some [⟨14, hashLintSigningMessage⟩, ⟨10, signingLintMessage⟩] := by
  exact ⟨by decide, by decide⟩

/-- C3 (amended): in the SSA analyzer every check silently skips an argument
it cannot resolve — an entropy argument that is not a (wrapped) call result,
a non-constant bit size, and a non-constant prime count each yield no
diagnostic and no crash; the legacy AST analyzer's hash-identifier check
instead emits the hash-strength diagnostic on a non-constant hash. -/
theorem claim_c3_unresolved_skip_amended (pos : Nat)
    (v np bits u w : RsacheckSSA.SSAValue) (e : AstExpr)
    (hv : ∀ c, RsacheckSSA.stripWraps v ≠ RsacheckSSA.SSAValue.call c)
    (hb : ∀ m, bits ≠ RsacheckSSA.SSAValue.constInt m)
    (hnp : ∀ m, np ≠ RsacheckSSA.SSAValue.constInt m)
    (he : e.constVal = none) :
    RsacheckSSA.checkSecureRandomReader pos v = [] ∧
    RsacheckSSA.checkBits pos bits = [] ∧
    RsacheckSSA.checkNPrimesForBits pos np w = [] ∧
    RsacheckSSA.checkNPrimesForBits pos u bits = [] ∧
    checkSecureHashAlgo e = [⟨e.pos, hashLintSigningMessage⟩] := by
  refine ⟨?_, ?_, ?_, ?_, ?_⟩
  · induction v with
    | call c => exact absurd rfl (hv c)
    | makeInterface x ih => exact ih hv
    | constInt m => rfl
    | other => rfl
  · cases bits with
    | constInt m => exact absurd rfl (hb m)
    | call c => rfl
    | makeInterface x => rfl
    | other => rfl
  · cases np with
    | constInt m => exact absurd rfl (hnp m)
    | call c => cases w <;> rfl
    | makeInterface x => cases w <;> rfl
    | other => cases w <;> rfl
  · cases u with
    | constInt m =>
        cases bits with
        | constInt m2 => exact absurd rfl (hb m2)
        | call c => rfl
        | makeInterface x => rfl
        | other => rfl
    | call c => cases bits <;> rfl
    | makeInterface x => cases bits <;> rfl
    | other => cases bits <;> rfl
  · simp [checkSecureHashAlgo, he, goSprintfVal]

/-- Witness for C3 (amended) at unresolvable argument shapes. -/
theorem claim_c3_unresolved_skip_amended_witness :
    RsacheckSSA.checkSecureRandomReader 3 .other = [] ∧
    RsacheckSSA.checkBits 3 .other = [] ∧
    RsacheckSSA.checkNPrimesForBits 3 .other (.constInt 1024) = [] ∧
    RsacheckSSA.checkNPrimesForBits 3 (.constInt 9) .other = [] ∧
    checkSecureHashAlgo ⟨.otherShape, "crypto.Hash", none, 3⟩ =
      [⟨3, hashLintSigningMessage⟩] :=
  claim_c3_unresolved_skip_amended 3 .other .other .other (.constInt 9) (.constInt 1024)
    ⟨.otherShape, "crypto.Hash", none, 3⟩
    (fun _ h => RsacheckSSA.SSAValue.noConfusion h)
    (fun _ h => RsacheckSSA.SSAValue.noConfusion h)
    (fun _ h => RsacheckSSA.SSAValue.noConfusion h)
    rfl

/-- C4: a SignPKCS1v15 call whose entropy argument is untyped nil (and hence
not the rand.Reader selector) and whose hash identifier is a compile-time
constant other than the two accepted values emits exactly four diagnostics,
in declared order: weak entropy, nil blinding, hash strength, and the
unconditional use-PSS message appended last. -/
theorem claim_c4_sign_nil_entropy_weak_hash (sePos : Nat) (a0 a1 a2 a3 : AstExpr)
    (c : GoConst)
    (h0 : a0.typeStr = "untyped nil")
    (h0s : isOfSelectorExprType "rand.Reader" a0 = false)
    (hc : a2.constVal = some c)
    (h7 : goConstString c ≠ "7") (h5 : goConstString c ≠ "5") :
    astVisitCall (some ("rsa", "SignPKCS1v15")) sePos [a0, a1, a2, a3] =
      some [⟨a0.pos, randSourceLintMessage⟩, ⟨a0.pos, blidingLintMessage⟩,
            ⟨a2.pos, hashLintSigningMessage⟩, ⟨sePos, signingLintMessage⟩] := by
  have hred : astVisitCall (some ("rsa", "SignPKCS1v15")) sePos [a0, a1, a2, a3] =
      some (checkSecureEntropySource a0 ++ checkBlindKeyOp a0 ++
        checkSecureHashAlgo a2 ++ [⟨sePos, signingLintMessage⟩]) := rfl
  have hent : checkSecureEntropySource a0 = [⟨a0.pos, randSourceLintMessage⟩] := by
    simp [checkSecureEntropySource, h0s]
  have hblind : checkBlindKeyOp a0 = [⟨a0.pos, blidingLintMessage⟩] := by
    simp [checkBlindKeyOp, h0]
  have hhash : checkSecureHashAlgo a2 = [⟨a2.pos, hashLintSigningMessage⟩] := by
    simp [checkSecureHashAlgo, goSprintfVal, hc, h7, h5]
  rw [hred, hent, hblind, hhash]
  rfl

/-- Witness for C4: nil entropy and the crypto.Hash(0) constant. -/
theorem claim_c4_sign_nil_entropy_weak_hash_witness :
    astVisitCall (some ("rsa", "SignPKCS1v15")) 10
      [⟨.otherShape, "untyped nil", none, 11⟩, ⟨.otherShape, "*rsa.PrivateKey", none, 12⟩,
       ⟨.otherShape, "crypto.Hash", some (.int 0), 13⟩, ⟨.otherShape, "[]byte", none, 14⟩] =
      some [⟨11, randSourceLintMessage⟩, ⟨11, blidingLintMessage⟩,
            ⟨13, hashLintSigningMessage⟩, ⟨10, signingLintMessage⟩] :=
  claim_c4_sign_nil_entropy_weak_hash 10
    ⟨.otherShape, "untyped nil", none, 11⟩ ⟨.otherShape, "*rsa.PrivateKey", none, 12⟩
    ⟨.otherShape, "crypto.Hash", some (.int 0), 13⟩ ⟨.otherShape, "[]byte", none, 14⟩
    (.int 0) rfl rfl rfl (by decide) (by decide)

/-- C5: on a DecryptPKCS1v15SessionKey call the session-key check reports an
untyped-nil fourth argument always, a byte-sequence conversion literal
exactly when its string content is shorter than 16 bytes (so length 15 fires
and length 16 does not), and a composite byte-sequence literal exactly when
it has fewer than 16 elements. -/
theorem claim_c5_session_key_size (pos sePos : Nat) (shape : AstShape)
    (cv cv2 : Option GoConst) (s : String) (fs : Option (String × String)) (n : Nat)
    (a0 a1 a2 : AstExpr) :
    checkPKCS1v15SessionKeySize ⟨shape, "untyped nil", cv, pos⟩ =
      some [⟨pos, keySizeLintcMessage⟩] ∧
    checkPKCS1v15SessionKeySize ⟨.callExpr fs "[]byte" (some (.str s)), "[]byte", cv2, pos⟩ =
      some (if s.utf8ByteSize < 16 then [⟨pos, keySizeLintcMessage⟩] else []) ∧
    checkPKCS1v15SessionKeySize ⟨.compositeLit n, "[]byte", cv2, pos⟩ =
      some (if n < 16 then [⟨pos, keySizeLintcMessage⟩] else []) ∧
    astVisitCall (some ("rsa", "DecryptPKCS1v15SessionKey")) sePos
        [a0, a1, a2, ⟨shape, "untyped nil", cv, pos⟩] =
      some (checkBlindKeyOp a0 ++ [⟨pos, keySizeLintcMessage⟩]) := by
  have hnil : checkPKCS1v15SessionKeySize ⟨shape, "untyped nil", cv, pos⟩ =
      some [⟨pos, keySizeLintcMessage⟩] := rfl
  refine ⟨hnil, ?_, rfl, ?_⟩
  · have hred : checkPKCS1v15SessionKeySize
        ⟨.callExpr fs "[]byte" (some (.str s)), "[]byte", cv2, pos⟩ =
        (match goUnquote (goConstString (.str s)) with
          | some s2 => some (if s2.utf8ByteSize < 16 then [⟨pos, keySizeLintcMessage⟩] else [])
          | none => some []) := rfl
    rw [hred, show goConstString (GoConst.str s) = "\"" ++ s ++ "\"" from rfl, goUnquote_quote]
  · have hred : astVisitCall (some ("rsa", "DecryptPKCS1v15SessionKey")) sePos
        [a0, a1, a2, ⟨shape, "untyped nil", cv, pos⟩] =
        (do
          let keyDiags ← checkPKCS1v15SessionKeySize ⟨shape, "untyped nil", cv, pos⟩
          pure (checkBlindKeyOp a0 ++ keyDiags)) := rfl
    rw [hred, hnil]
    rfl

end ASTTheorems
